import Mathlib

/-!
Verification of the PR TIMES scraping API server (main.go) against its
specification.  The Go program is shallowly embedded: pure helpers
(extractReleaseID, parseReleaseDate, strconv.Atoi, time formatting) become
Lean functions, and the HTTP handler becomes a function over an explicit
upstream oracle that also returns the list of upstream requests it issues.
Machine integers are modelled as Int with explicit two's-complement
wrap-around where Go overflow semantics matter (time.Duration
multiplication).  Go's time formatting is modelled down to the civil
calendar computation (the Neri-Schneider algorithm used by the Go 1.23
time package), with the local clock represented as nanoseconds since the
Unix epoch at a fixed zone offset.
-/

/-! ### Decimal digit rendering, as in Go's appendInt -/

/-- The character for the low decimal digit of a number, as Go's byte('0'+u%10). -/
def digitChar (n : Nat) : Char := Char.ofNat (48 + n % 10)

/-- Fuel-bounded most-significant-first decimal digits of a natural number. -/
def natDigitsAux : Nat → Nat → List Char
  | 0, _ => []
  | f + 1, n =>
    if n < 10 then [digitChar n]
    else natDigitsAux f (n / 10) ++ [digitChar n]

/-- Decimal digits of a natural number, most significant first. -/
def natDigits (n : Nat) : List Char := natDigitsAux (n + 1) n

/-- Go's appendInt: render x in decimal, zero-padded on the left to width w;
a negative x gets a leading minus sign that does not count towards the width. -/
def goAppendInt (x : Int) (w : Nat) : String :=
  let ds := natDigits x.natAbs
  let body := List.replicate (w - ds.length) '0' ++ ds
  if x < 0 then String.mk ('-' :: body) else String.mk body

/-! ### Go time model

Wall-clock instants are nanoseconds since the Unix epoch on the server's
local clock (a fixed zone offset folded into the value).  Formatting uses
the civil-from-days computation of the Go 1.23 time package
(Neri-Schneider); arithmetic is Int with ediv/emod, which is floor
division for the positive constant divisors used here. -/

/-- Civil (proleptic Gregorian) date of a day count since the Unix epoch:
the Neri-Schneider computation used by Go's time package. -/
def civilFromDays (z : Int) : Int × Int × Int :=
  let days := z + 719468
  let n4 := 4 * days + 3
  let century := n4 / 146097
  let nc := 4 * ((n4 % 146097) / 4) + 3
  let yc := nc / 1461
  let nz := nc % 1461
  let j := nz / 4
  let nj := 5 * j + 461
  let m := nj / 153
  let d := (nj % 153) / 5 + 1
  let year := 100 * century + yc + (if 306 ≤ j then 1 else 0)
  let month := if 12 < m then m - 12 else m
  (year, month, d)

/-- Render a civil date-time in the Go layout string 2006年01月02日 15:04. -/
def formatGoDateTime (y mo d h mi : Int) : String :=
  goAppendInt y 4 ++ "年" ++ goAppendInt mo 2 ++ "月" ++ goAppendInt d 2 ++
    "日 " ++ goAppendInt h 2 ++ ":" ++ goAppendInt mi 2

/-- Format an instant (local-clock nanoseconds since the Unix epoch) in the
layout 2006年01月02日 15:04, as Go's time.Time.Format does. -/
def formatGoTime (e : Int) : String :=
  let sec := e / 1000000000
  let days := sec / 86400
  let secOfDay := sec % 86400
  let c := civilFromDays days
  formatGoDateTime c.1 c.2.1 c.2.2 (secOfDay / 3600) ((secOfDay % 3600) / 60)

/-- Two's-complement wrap-around of an integer into the int64 range,
Go's defined behaviour for overflowing signed multiplication. -/
def int64Wrap (x : Int) : Int :=
  (x + 9223372036854775808) % 18446744073709551616 - 9223372036854775808

/-- Checks that a string has the exact zero-padded canonical shape
YYYY年MM月DD日 HH:MM. -/
def isCanonicalShape (s : String) : Bool :=
  match s.data with
  | [y1, y2, y3, y4, k1, m1, m2, k2, d1, d2, k3, sp, h1, h2, cl, n1, n2] =>
    y1.isDigit && y2.isDigit && y3.isDigit && y4.isDigit && (k1 = '年') &&
    m1.isDigit && m2.isDigit && (k2 = '月') &&
    d1.isDigit && d2.isDigit && (k3 = '日') && (sp = ' ') &&
    h1.isDigit && h2.isDigit && (cl = ':') &&
    n1.isDigit && n2.isDigit
  | _ => false

/-! ### strconv.Atoi and time.Parse fragments -/

/-- Numeric value of a decimal digit character. -/
def digitVal (c : Char) : Nat := c.toNat - 48

/-- Go's strconv.Atoi: optional sign, one or more ASCII digits, nothing
else, and the value must fit in int64 (otherwise Atoi reports an error). -/
def goAtoi (s : String) : Option Int :=
  let p : Int × List Char :=
    match s.data with
    | '+' :: r => (1, r)
    | '-' :: r => (-1, r)
    | r => (1, r)
  let sign := p.1
  let ds := p.2
  if ds = [] then none
  else if ds.all Char.isDigit then
    let n : Nat := ds.foldl (fun acc c => acc * 10 + digitVal c) 0
    let v : Int := sign * (n : Int)
    if v < -9223372036854775808 ∨ 9223372036854775807 < v then none else some v
  else none

/-- Go's time getnum: one or two decimal digits (exactly two when fixed). -/
def getnum (cs : List Char) (fixed : Bool) : Option (Nat × List Char) :=
  match cs with
  | [] => none
  | [c1] =>
    if c1.isDigit ∧ ¬fixed then some (digitVal c1, []) else none
  | c1 :: c2 :: rest =>
    if c1.isDigit then
      if c2.isDigit then some (digitVal c1 * 10 + digitVal c2, rest)
      else if fixed then none
      else some (digitVal c1, c2 :: rest)
    else none

/-- Go's daysIn: number of days of a month in a year. -/
def goDaysIn (m : Int) (y : Int) : Int :=
  if m = 2 then
    if y % 4 = 0 ∧ (y % 100 ≠ 0 ∨ y % 400 = 0) then 29 else 28
  else if m = 4 ∨ m = 6 ∨ m = 9 ∨ m = 11 then 30
  else 31

/-- Go's time.Parse with the layout 2006年1月2日 15時04分: a four-digit
year, one-or-two-digit month and day, one-or-two-digit hour, a two-digit
minute, the literal separators, no trailing text, and the range checks
Parse performs.  Returns (year, month, day, hour, minute). -/
def parseGoAbsolute (s : String) : Option (Int × Int × Int × Int × Int) :=
  match s.data with
  | y1 :: y2 :: y3 :: y4 :: rest0 =>
    if y1.isDigit ∧ y2.isDigit ∧ y3.isDigit ∧ y4.isDigit then
      let year : Int :=
        (((digitVal y1 * 10 + digitVal y2) * 10 + digitVal y3) * 10 + digitVal y4 : Nat)
      match rest0 with
      | '年' :: rest1 =>
        match getnum rest1 false with
        | none => none
        | some (mo, rest2) =>
          match rest2 with
          | '月' :: rest3 =>
            match getnum rest3 false with
            | none => none
            | some (d, rest4) =>
              match rest4 with
              | '日' :: ' ' :: rest5 =>
                match getnum rest5 false with
                | none => none
                | some (h, rest6) =>
                  match rest6 with
                  | '時' :: rest7 =>
                    match getnum rest7 true with
                    | none => none
                    | some (mi, rest8) =>
                      match rest8 with
                      | ['分'] =>
                        if 1 ≤ (mo : Int) ∧ (mo : Int) ≤ 12 ∧
                            1 ≤ (d : Int) ∧ (d : Int) ≤ goDaysIn mo year ∧
                            (h : Int) < 24 ∧ (mi : Int) < 60 then
                          some (year, mo, d, h, mi)
                        else none
                      | _ => none
                  | _ => none
              | _ => none
          | _ => none
      | _ => none
    else none
  | _ => none

/-! ### The relative-date regular expressions -/

/-- Leftmost match of the Go regular expression (\d+)marker: scan left to
right for a maximal ASCII digit run immediately followed by the marker
characters, and return the digit run.  Greedy matching never needs to
backtrack here because a shorter digit run is followed by a digit, which
cannot start the marker. -/
def findNumBefore (marker : List Char) : List Char → Option (List Char)
  | [] => none
  | c :: rest =>
    if c.isDigit ∧ List.isPrefixOf marker ((c :: rest).dropWhile Char.isDigit) then
      some ((c :: rest).takeWhile Char.isDigit)
    else findNumBefore marker rest

/-! ### parseReleaseDate (main.go lines 296-327) -/

/-- The characters of the relative-hours marker 時間前. -/
def hoursMarker : List Char := ("時間前").data

/-- The characters of the relative-minutes marker 分前. -/
def minutesMarker : List Char := ("分前").data

/-- parseReleaseDate from main.go: first the relative-hours regex (falling
through when the regex fails or its captured number overflows Atoi), then
the relative-minutes regex, then the absolute layout, then the current
time.  Duration arithmetic wraps in int64 as in Go. -/
def parseReleaseDate (now : Int) (dateStr : String) : String :=
  let hoursNum : Option Int :=
    match findNumBefore hoursMarker dateStr.data with
    | some ds => goAtoi (String.mk ds)
    | none => none
  match hoursNum with
  | some n => formatGoTime (now + int64Wrap (-n * 3600000000000))
  | none =>
    let minutesNum : Option Int :=
      match findNumBefore minutesMarker dateStr.data with
      | some ds => goAtoi (String.mk ds)
      | none => none
    match minutesNum with
    | some n => formatGoTime (now + int64Wrap (-n * 60000000000))
    | none =>
      match parseGoAbsolute dateStr with
      | some (y, mo, d, h, mi) => formatGoDateTime y mo d h mi
      | none => formatGoTime now

/-! ### extractReleaseID (main.go lines 200-207) -/

/-- The literal part of the release-URL regular expression. -/
def releaseIDLit : List Char := ("/main/html/rd/p/").data

/-- The characters of the literal .html suffix. -/
def htmlSuffix : List Char := (".html").data

/-- Leftmost match of /main/html/rd/p/([0-9]+)\.([0-9]+)\.html against a
character list, returning the two capture groups.  Scans every start
position; at a position the literal must match, then a nonempty maximal
digit run, a dot, a second nonempty maximal digit run and the .html
literal (greedy matching needs no backtracking: a shortened digit run is
followed by a digit, which can start neither the dot nor .html). -/
def extractReleaseIDAux : List Char → Option (List Char × List Char)
  | [] => none
  | c :: rest =>
    if List.isPrefixOf releaseIDLit (c :: rest) then
      let t := (c :: rest).drop releaseIDLit.length
      let d1 := t.takeWhile Char.isDigit
      match t.dropWhile Char.isDigit with
      | '.' :: t2 =>
        let d2 := t2.takeWhile Char.isDigit
        if d1 ≠ [] ∧ d2 ≠ [] ∧ List.isPrefixOf htmlSuffix (t2.dropWhile Char.isDigit) then
          some (d1, d2)
        else extractReleaseIDAux rest
      | _ => extractReleaseIDAux rest
    else extractReleaseIDAux rest

/-- extractReleaseID from main.go: the two numeric components joined by a
dot when the regular expression matches, the empty string otherwise. -/
def extractReleaseID (releaseURL : String) : String :=
  match extractReleaseIDAux releaseURL.data with
  | some (d1, d2) => String.mk d1 ++ "." ++ String.mk d2
  | none => ""

/-- A string contains /main/html/rd/p/<digits>.<digits>.html somewhere as
a substring. -/
def HasReleasePattern (s : String) : Prop :=
  ∃ pre d1 d2 suf,
    s.data = pre ++ releaseIDLit ++ d1 ++ ('.' :: d2) ++ htmlSuffix ++ suf ∧
    d1 ≠ [] ∧ d2 ≠ [] ∧ d1.all Char.isDigit ∧ d2.all Char.isDigit

/-! ### Data model (main.go lines 136-165) -/

/-- One press-release listing of the upstream search response
(an element of data.release_list). -/
structure RawRelease where
  companyName : String
  title : String
  thumbnailURL : String
  releaseURL : String
  releasedAt : String
deriving DecidableEq, Repr

/-- The decoded upstream search envelope (PRTimesResponse.Data). -/
structure PRTimesData where
  currentPage : Int
  lastPage : Int
  releaseList : List RawRelease
deriving DecidableEq, Repr

/-- One element of the handler's JSON response array. -/
structure ResponseItem where
  corporationName : String
  publishedDate : String
  thumbnailURL : String
  postURL : String
  title : String
  likeCount : Int
deriving DecidableEq, Repr

/-- An upstream network request issued by the handler: a keyword search
for a page, or a like-count lookup for a release identifier. -/
inductive UpstreamRequest where
  | search (keyword : String) (page : Int)
  | likeCount (releaseID : String)
deriving DecidableEq, Repr

/-- The handler's error responses, as written by http.Error. -/
inductive HttpError where
  | badRequest (msg : String)
  | internalServerError (msg : String)
deriving DecidableEq, Repr

/-- The upstream network, as an oracle.  fetchPRTimesData is indexed by
the call slot in the handler's sequential order: slot 0 is the page-count
discovery call (always for page 1) and slot p, p ≥ 1, is the fan-out
call for page p; this keeps the two physical page-1 requests distinct.
fetchLikeCount is indexed by the requested release identifier.  none
models a network or JSON-decode failure. -/
structure Upstream where
  fetchPRTimesData : Int → Option PRTimesData
  fetchLikeCount : String → Option Int

/-! ### The handler (main.go lines 209-294) -/

/-- The body of the per-release loop (main.go lines 251-271): extract the
identifier, fetch the like count (0 when that call fails), build the
item.  Also returns the upstream requests this issues. -/
def processRelease (up : Upstream) (now : Int) (release : RawRelease) :
    ResponseItem × List UpstreamRequest :=
  let releaseID := extractReleaseID release.releaseURL
  let likeCount : Int :=
    match up.fetchLikeCount releaseID with
    | some n => n
    | none => 0
  ({ corporationName := release.companyName
     publishedDate := parseReleaseDate now release.releasedAt
     thumbnailURL := release.thumbnailURL
     postURL := ("https://prtimes.jp") ++ release.releaseURL
     title := release.title
     likeCount := likeCount },
   [UpstreamRequest.likeCount releaseID])

/-- One fan-out task (main.go lines 243-272): fetch the page (log and
contribute nothing on failure), then process each listed release. -/
def processPage (up : Upstream) (now : Int) (keyword : String) (page : Int) :
    List ResponseItem × List UpstreamRequest :=
  match up.fetchPRTimesData page with
  | none => ([], [UpstreamRequest.search keyword page])
  | some data =>
    let processed := data.releaseList.map (processRelease up now)
    (processed.map Prod.fst,
     UpstreamRequest.search keyword page :: (processed.map Prod.snd).flatten)

/-- The pages 1, 2, ..., n the fan-out loop iterates (empty when n ≤ 0). -/
def pageList (n : Int) : List Int :=
  (List.range n.toNat).map (fun i : Nat => (i : Int) + 1)

/-- The descending like-count order that sort.Slice establishes: the item
a may precede b when b's like count does not exceed a's. -/
def likeDescOrder (a b : ResponseItem) : Prop := b.likeCount ≤ a.likeCount

instance : DecidableRel likeDescOrder :=
  fun a b => inferInstanceAs (Decidable (b.likeCount ≤ a.likeCount))

instance : IsTotal ResponseItem likeDescOrder :=
  ⟨fun a b => (le_total b.likeCount a.likeCount).imp id id⟩

instance : IsTrans ResponseItem likeDescOrder :=
  ⟨fun _ _ _ h1 h2 => le_trans h2 h1⟩

/-- Sorting by descending like count: a model of sort.Slice with the
comparison likeCount i > likeCount j (main.go lines 278-280); Go's sort
is unstable, so any likeCount-descending permutation is a faithful
model, and no claim depends on the order of ties. -/
def sortByLikeDesc (l : List ResponseItem) : List ResponseItem :=
  List.insertionSort likeDescOrder l

/-- Validation of the limit query parameter (main.go lines 216-225):
absent means 0 (unlimited); otherwise it must parse via Atoi to a
positive value, else 400. -/
def parseLimit (limitStr : String) : Except HttpError Int :=
  if limitStr = "" then Except.ok 0
  else
    match goAtoi limitStr with
    | none => Except.error (HttpError.badRequest
        ("limit query parameter must be a positive integer"))
    | some l =>
      if l ≤ 0 then Except.error (HttpError.badRequest
        ("limit query parameter must be a positive integer"))
      else Except.ok l

/-- The shared result collection after the wait barrier, modelled in page
order: the items contributed by the fan-out tasks for pages 1..totalPages. -/
def rawResults (up : Upstream) (now : Int) (keyword : String) (totalPages : Int) :
    List ResponseItem :=
  (((pageList totalPages).map (processPage up now keyword)).map Prod.fst).flatten

/-- The upstream requests of a full fan-out: the discovery request for
page 1 followed by the requests of the tasks for pages 1..totalPages. -/
def fanOutTrace (up : Upstream) (now : Int) (keyword : String) (totalPages : Int) :
    List UpstreamRequest :=
  UpstreamRequest.search keyword 1 ::
    (((pageList totalPages).map (processPage up now keyword)).map Prod.snd).flatten

/-- handlePRTimesPosts from main.go: validate the keyword and limit
parameters, fetch page 1 to discover the page count (fatal on failure),
fan out over pages 1..lastPage, sort by descending like count, truncate
to the limit, and return the items together with the trace of upstream
requests issued.  The concurrent goroutines append to the shared slice
in a nondeterministic order behind a mutex and join before the sort;
since the collection is sorted afterwards and every claim is invariant
under the pre-sort order, the fan-out is modelled in page order. -/
def handlePRTimesPosts (up : Upstream) (now : Int) (keyword limitStr : String) :
    Except HttpError (List ResponseItem) × List UpstreamRequest :=
  if keyword = "" then
    (Except.error (HttpError.badRequest ("keyword query parameter is required")), [])
  else
    match parseLimit limitStr with
    | Except.error e => (Except.error e, [])
    | Except.ok limit =>
      match up.fetchPRTimesData 0 with
      | none =>
        (Except.error (HttpError.internalServerError
            ("Failed to fetch data from PR TIMES API")),
         [UpstreamRequest.search keyword 1])
      | some firstPageData =>
        let totalPages := firstPageData.lastPage
        let sorted := sortByLikeDesc (rawResults up now keyword totalPages)
        let final :=
          if 0 < limit ∧ limit < (sorted.length : Int) then sorted.take limit.toNat
          else sorted
        (Except.ok final, fanOutTrace up now keyword totalPages)

/-! ### Concrete upstream oracles used by the witnesses -/

/-- An upstream on which every call fails. -/
def upDead : Upstream :=
  { fetchPRTimesData := fun _ => none
    fetchLikeCount := fun _ => none }

/-- A listing whose release URL matches the identifier pattern. -/
def sampleRelease : RawRelease :=
  { companyName := ("株式会社テスト")
    title := ("新製品リリース")
    thumbnailURL := ("https://example.com/a.png")
    releaseURL := ("/main/html/rd/p/123.456.html")
    releasedAt := ("3時間前") }

/-- A listing whose release URL does not match the identifier pattern. -/
def badURLRelease : RawRelease :=
  { companyName := ("株式会社B")
    title := ("タイトルB")
    thumbnailURL := ("https://example.com/b.png")
    releaseURL := ("/other/path")
    releasedAt := ("45分前") }

/-- A one-page upstream: the discovery call and the fan-out call for
page 1 both return one listing; like counts resolve to 7. -/
def upOnePage : Upstream :=
  { fetchPRTimesData := fun slot =>
      if slot = 0 ∨ slot = 1 then
        some { currentPage := 1, lastPage := 1, releaseList := [sampleRelease] }
      else none
    fetchLikeCount := fun _ => some 7 }

/-- A reference instant: 2024-12-03 00:00:00 on the server clock. -/
def refNow : Int := 1733184000000000000

/-! ### C8: input validation rejects before any upstream call -/

/-- C8: a request with an empty keyword, or with a nonempty limit
parameter that is non-numeric or parses to a non-positive value, is
rejected with a 400 input-validation error and an empty upstream trace
(no upstream network call is issued). -/
theorem C8_validation_rejects_before_upstream (up : Upstream) (now : Int)
    (keyword limitStr : String) :
    (keyword = "" →
      handlePRTimesPosts up now keyword limitStr =
        (Except.error (HttpError.badRequest ("keyword query parameter is required")), [])) ∧
    (keyword ≠ "" →
      (goAtoi limitStr = none ∨ ∃ l, goAtoi limitStr = some l ∧ l ≤ 0) →
      limitStr ≠ "" →
      handlePRTimesPosts up now keyword limitStr =
        (Except.error (HttpError.badRequest
          ("limit query parameter must be a positive integer")), [])) := by
  constructor
  · intro h
    subst h
    simp [handlePRTimesPosts]
  · intro hkw hbad hne
    rcases hbad with h | ⟨l, hl, hle⟩
    · simp [handlePRTimesPosts, parseLimit, hkw, hne, h]
    · simp [handlePRTimesPosts, parseLimit, hkw, hne, hl, hle]

/-- Witness for C8 at concrete inputs: an empty keyword, and the
explicit limits 0 and abc with a nonempty keyword. -/
theorem C8_validation_rejects_before_upstream_witness :
    handlePRTimesPosts upDead refNow ("") ("") =
      (Except.error (HttpError.badRequest ("keyword query parameter is required")), []) ∧
    handlePRTimesPosts upDead refNow ("キーワード") ("0") =
      (Except.error (HttpError.badRequest
        ("limit query parameter must be a positive integer")), []) ∧
    handlePRTimesPosts upDead refNow ("キーワード") ("abc") =
      (Except.error (HttpError.badRequest
        ("limit query parameter must be a positive integer")), []) :=
  ⟨(C8_validation_rejects_before_upstream upDead refNow ("") ("")).1 rfl,
   (C8_validation_rejects_before_upstream upDead refNow ("キーワード") ("0")).2
     (by decide) (Or.inr ⟨0, by decide, by decide⟩) (by decide),
   (C8_validation_rejects_before_upstream upDead refNow ("キーワード") ("abc")).2
     (by decide) (Or.inl (by decide)) (by decide)⟩

/-! ### C7: a page-1 discovery failure is fatal and stops the request -/

/-- C7: when the keyword and limit validate but the page-1 discovery
fetch fails, the request fails with the upstream error response and the
trace contains exactly the one page-1 search request: no upstream call
is made for any other page. -/
theorem C7_page1_failure_fatal (up : Upstream) (now : Int)
    (keyword limitStr : String) (limit : Int)
    (hkw : keyword ≠ "") (hlim : parseLimit limitStr = Except.ok limit)
    (hfail : up.fetchPRTimesData 0 = none) :
    handlePRTimesPosts up now keyword limitStr =
      (Except.error (HttpError.internalServerError
        ("Failed to fetch data from PR TIMES API")),
       [UpstreamRequest.search keyword 1]) := by
  simp [handlePRTimesPosts, hkw, hlim, hfail]

/-- Witness for C7: the dead upstream with a valid keyword and no limit. -/
theorem C7_page1_failure_fatal_witness :
    handlePRTimesPosts upDead refNow ("キーワード") ("") =
      (Except.error (HttpError.internalServerError
        ("Failed to fetch data from PR TIMES API")),
       [UpstreamRequest.search ("キーワード") 1]) :=
  C7_page1_failure_fatal upDead refNow ("キーワード") ("") 0
    (by decide) rfl rfl

/-! ### C5 and C10: extractReleaseID -/

/-- takeWhile and dropWhile on a run of p-satisfying characters followed
by a character failing p. -/
theorem takeWhile_run (p : Char → Bool) (l : List Char) (c : Char) (r : List Char)
    (hl : l.all p = true) (hc : p c = false) :
    (l ++ c :: r).takeWhile p = l ∧ (l ++ c :: r).dropWhile p = c :: r := by
  induction l with
  | nil => simp [List.takeWhile_cons, List.dropWhile_cons, hc]
  | cons a t ih =>
    simp only [List.all_cons, Bool.and_eq_true] at hl
    have ht := ih hl.2
    simp [List.takeWhile_cons, List.dropWhile_cons, hl.1, ht.1, ht.2]

/-- The release-URL pattern matches at the start of the scanned text:
the extractor returns the two digit runs, whatever follows .html. -/
theorem extractReleaseIDAux_here (d1 d2 suf : List Char)
    (h1 : d1 ≠ []) (h2 : d2 ≠ []) (ha1 : d1.all Char.isDigit = true)
    (ha2 : d2.all Char.isDigit = true) :
    extractReleaseIDAux (releaseIDLit ++ (d1 ++ ('.' :: (d2 ++ (htmlSuffix ++ suf))))) =
      some (d1, d2) := by
  have hhtml : htmlSuffix = '.' :: ('h' :: 't' :: 'm' :: 'l' :: []) := by decide
  obtain ⟨c, rest, hcr⟩ :
      ∃ c rest, releaseIDLit ++ (d1 ++ ('.' :: (d2 ++ (htmlSuffix ++ suf)))) = c :: rest := by
    cases h : releaseIDLit ++ (d1 ++ ('.' :: (d2 ++ (htmlSuffix ++ suf)))) with
    | nil =>
      have : releaseIDLit = [] := by
        cases List.append_eq_nil.mp h with
        | intro h1 h2 => exact h1
      exact absurd this (by decide)
    | cons c rest => exact ⟨c, rest, rfl⟩
  rw [hcr, extractReleaseIDAux, ← hcr]
  have hpre : List.isPrefixOf releaseIDLit
      (releaseIDLit ++ (d1 ++ ('.' :: (d2 ++ (htmlSuffix ++ suf))))) = true :=
    List.isPrefixOf_iff_prefix.mpr (List.prefix_append ..)
  rw [hpre]
  simp only [if_true, List.drop_left]
  have hrun1 := takeWhile_run Char.isDigit d1 '.' (d2 ++ (htmlSuffix ++ suf)) ha1 (by decide)
  rw [hrun1.1, hrun1.2]
  have hsufshape : htmlSuffix ++ suf = '.' :: (('h' :: 't' :: 'm' :: 'l' :: []) ++ suf) := by
    rw [hhtml]; simp
  have hrun2 := takeWhile_run Char.isDigit d2 '.' (('h' :: 't' :: 'm' :: 'l' :: []) ++ suf)
    ha2 (by decide)
  have hpre2 : List.isPrefixOf htmlSuffix (htmlSuffix ++ suf) = true :=
    List.isPrefixOf_iff_prefix.mpr (List.prefix_append ..)
  split
  · rename_i t2 heq
    obtain rfl : d2 ++ (htmlSuffix ++ suf) = t2 := by
      injection heq
    rw [hsufshape, hrun2.1, hrun2.2, ← hsufshape]
    simp [h1, h2, hpre2]
  · rename_i hno
    exact absurd rfl (hno (d2 ++ (htmlSuffix ++ suf)))

/-- Any successful extraction decomposes the input around a pattern
occurrence: the two returned groups are nonempty digit runs. -/
theorem extractReleaseIDAux_some_decomp (cs d1 d2 : List Char)
    (h : extractReleaseIDAux cs = some (d1, d2)) :
    ∃ pre suf,
      cs = pre ++ releaseIDLit ++ d1 ++ ('.' :: d2) ++ htmlSuffix ++ suf ∧
      d1 ≠ [] ∧ d2 ≠ [] ∧ d1.all Char.isDigit = true ∧ d2.all Char.isDigit = true := by
  induction cs with
  | nil => simp [extractReleaseIDAux] at h
  | cons c rest ih =>
    rw [extractReleaseIDAux] at h
    split at h
    · rename_i hpre
      dsimp only at h
      split at h
      · rename_i t2 heq
        split at h
        · rename_i hcond
          obtain ⟨hd1, hd2, hhtml⟩ := hcond
          obtain ⟨hfst, hsnd⟩ : List.takeWhile Char.isDigit
                ((c :: rest).drop releaseIDLit.length) = d1 ∧
              List.takeWhile Char.isDigit t2 = d2 := by
            constructor
            · exact congrArg Prod.fst (Option.some.inj h)
            · exact congrArg Prod.snd (Option.some.inj h)
          obtain ⟨t, ht⟩ : ∃ t, releaseIDLit ++ t = c :: rest :=
            List.isPrefixOf_iff_prefix.mp hpre
          obtain ⟨sufh, hsufh⟩ : ∃ sufh,
              htmlSuffix ++ sufh = List.dropWhile Char.isDigit t2 :=
            List.isPrefixOf_iff_prefix.mp hhtml
          refine ⟨[], sufh, ?_, ?_, ?_, ?_, ?_⟩
          · have hdrop : (c :: rest).drop releaseIDLit.length = t := by
              rw [← ht, List.drop_left]
            have htdec : t = d1 ++ ('.' :: t2) := by
              rw [← hfst, ← hdrop]
              conv_lhs => rw [← List.takeWhile_append_dropWhile (p := Char.isDigit)
                (l := (c :: rest).drop releaseIDLit.length)]
              rw [heq]
            have ht2dec : t2 = d2 ++ (htmlSuffix ++ sufh) := by
              rw [← hsnd]
              conv_lhs => rw [← List.takeWhile_append_dropWhile (p := Char.isDigit) (l := t2)]
              rw [← hsufh]
            rw [← ht, htdec, ht2dec]
            simp
          · rw [← hfst]; exact hd1
          · rw [← hsnd]; exact hd2
          · rw [← hfst]; exact List.all_takeWhile ..
          · rw [← hsnd]; exact List.all_takeWhile ..
        · obtain ⟨pre, suf, hdec, rest'⟩ := ih h
          exact ⟨c :: pre, suf, by simp [hdec], rest'⟩
      · obtain ⟨pre, suf, hdec, rest'⟩ := ih h
        exact ⟨c :: pre, suf, by simp [hdec], rest'⟩
    · obtain ⟨pre, suf, hdec, rest'⟩ := ih h
      exact ⟨c :: pre, suf, by simp [hdec], rest'⟩

/-- The scan succeeds on any input containing a pattern occurrence. -/
theorem extractReleaseIDAux_isSome_of_decomp (pre d1 d2 suf : List Char)
    (h1 : d1 ≠ []) (h2 : d2 ≠ []) (ha1 : d1.all Char.isDigit = true)
    (ha2 : d2.all Char.isDigit = true) :
    extractReleaseIDAux (pre ++ releaseIDLit ++ d1 ++ ('.' :: d2) ++ htmlSuffix ++ suf) ≠
      none := by
  induction pre with
  | nil =>
    have := extractReleaseIDAux_here d1 d2 suf h1 h2 ha1 ha2
    simp only [List.nil_append, List.append_assoc, List.cons_append] at this ⊢
    simp [this]
  | cons c pre' ih =>
    have hshape : (c :: pre') ++ releaseIDLit ++ d1 ++ ('.' :: d2) ++ htmlSuffix ++ suf =
        c :: (pre' ++ releaseIDLit ++ d1 ++ ('.' :: d2) ++ htmlSuffix ++ suf) := by
      simp
    rw [hshape, extractReleaseIDAux]
    split
    · dsimp only
      split
      · split
        · simp
        · exact ih
      · exact ih
    · exact ih

/-- C5: the extractor maps a permalink of the shape
.../p/(digits).(digits).html to the two numeric components joined by a
literal dot (in particular the spec's example), and returns the empty
string for every path that nowhere contains the pattern. -/
theorem C5_extractReleaseID_contract :
    (extractReleaseID ("/main/html/rd/p/123.456.html") = ("123.456")) ∧
    (∀ d1 d2 : List Char, d1 ≠ [] → d2 ≠ [] →
      d1.all Char.isDigit = true → d2.all Char.isDigit = true →
      extractReleaseID (String.mk (releaseIDLit ++ (d1 ++ ('.' :: (d2 ++ htmlSuffix))))) =
        String.mk d1 ++ "." ++ String.mk d2) ∧
    (∀ s : String, ¬ HasReleasePattern s → extractReleaseID s = "") := by
  refine ⟨by decide, ?_, ?_⟩
  · intro d1 d2 h1 h2 ha1 ha2
    have hx := extractReleaseIDAux_here d1 d2 [] h1 h2 ha1 ha2
    rw [List.append_nil] at hx
    simp [extractReleaseID, hx]
  · intro s hno
    cases hx : extractReleaseIDAux s.data with
    | none => simp [extractReleaseID, hx]
    | some p =>
      exfalso
      apply hno
      obtain ⟨pre, suf, hdec, h1, h2, ha1, ha2⟩ :=
        extractReleaseIDAux_some_decomp s.data p.1 p.2 (by rw [hx])
      exact ⟨pre, p.1, p.2, suf, hdec, h1, h2, ha1, ha2⟩

/-- Witness for C5: a generically built matching permalink, and the
non-matching path xyz (shown not to contain the pattern by a length
argument). -/
theorem C5_extractReleaseID_contract_witness :
    extractReleaseID (String.mk (releaseIDLit ++
        (('7' :: []) ++ ('.' :: (('8' :: []) ++ htmlSuffix))))) =
      String.mk ('7' :: []) ++ "." ++ String.mk ('8' :: []) ∧
    extractReleaseID ("xyz") = "" :=
  ⟨(C5_extractReleaseID_contract).2.1 ('7' :: []) ('8' :: [])
      (by decide) (by decide) (by decide) (by decide),
   (C5_extractReleaseID_contract).2.2 ("xyz") (by
    rintro ⟨pre, d1, d2, suf, heq, h1, h2, ha1, ha2⟩
    have hlen := congrArg List.length heq
    have h16 : releaseIDLit.length = 16 := by decide
    have h5 : htmlSuffix.length = 5 := by decide
    have h3 : ("xyz").data.length = 3 := by decide
    simp only [List.length_append, List.length_cons, h16, h5, h3] at hlen
    omega)⟩

/-- C10: the extractor's pattern is unanchored: any string containing
/main/html/rd/p/(digits).(digits).html anywhere as a substring yields a
nonempty identifier, with arbitrary text before or after (a trailing
query string in the second conjunct), and the first occurrence wins
(third conjunct). -/
theorem C10_extractReleaseID_unanchored :
    (∀ s : String, HasReleasePattern s → extractReleaseID s ≠ "") ∧
    (extractReleaseID ("foo!/main/html/rd/p/12.34.html?query=1") = ("12.34")) ∧
    (extractReleaseID ("/main/html/rd/p/1.2.html/main/html/rd/p/3.4.html") = ("1.2")) := by
  refine ⟨?_, by decide, by decide⟩
  rintro s ⟨pre, d1, d2, suf, hdec, h1, h2, ha1, ha2⟩ hemp
  have hne := extractReleaseIDAux_isSome_of_decomp pre d1 d2 suf h1 h2 ha1 ha2
  rw [← hdec] at hne
  cases hx : extractReleaseIDAux s.data with
  | none => exact hne hx
  | some p =>
    rw [extractReleaseID, hx] at hemp
    have hdata := congrArg String.data hemp
    simp [String.data_append] at hdata

/-- Witness for C10: a concrete string containing the pattern. -/
theorem C10_extractReleaseID_unanchored_witness :
    extractReleaseID ("/main/html/rd/p/9.8.html") ≠ "" :=
  (C10_extractReleaseID_unanchored).1 ("/main/html/rd/p/9.8.html")
    ⟨[], '9' :: [], '8' :: [], [], by decide, by decide, by decide, by decide, by decide⟩

/-! ### C4: the finalized sequence is sorted by descending popularity -/

/-- On the success path the handler returns the sorted raw collection,
truncated when a positive limit is smaller than its length. -/
theorem handle_success (up : Upstream) (now : Int) (keyword limitStr : String)
    (limit : Int) (fp : PRTimesData) (hkw : keyword ≠ "")
    (hlim : parseLimit limitStr = Except.ok limit) (hfp : up.fetchPRTimesData 0 = some fp) :
    handlePRTimesPosts up now keyword limitStr =
      (Except.ok
        (if 0 < limit ∧
            limit < ((sortByLikeDesc (rawResults up now keyword fp.lastPage)).length : Int)
          then (sortByLikeDesc (rawResults up now keyword fp.lastPage)).take limit.toNat
          else sortByLikeDesc (rawResults up now keyword fp.lastPage)),
       fanOutTrace up now keyword fp.lastPage) := by
  simp [handlePRTimesPosts, hkw, hlim, hfp]

/-- Any successfully returned sequence is sorted by descending like count. -/
theorem handle_ok_sorted (up : Upstream) (now : Int) (keyword limitStr : String)
    (out : List ResponseItem)
    (hok : (handlePRTimesPosts up now keyword limitStr).1 = Except.ok out) :
    List.Sorted likeDescOrder out := by
  unfold handlePRTimesPosts at hok
  split at hok
  · simp at hok
  · split at hok
    · simp at hok
    · split at hok
      · simp at hok
      · dsimp only at hok
        have hout := Except.ok.inj hok
        subst hout
        split
        · exact List.Pairwise.sublist (List.take_sublist ..)
            (List.sorted_insertionSort likeDescOrder _)
        · exact List.sorted_insertionSort likeDescOrder _

/-- C4: in every successfully returned sequence, each adjacent pair has
a popularity count at position i at least that at position i+1. -/
theorem C4_sorted_descending (up : Upstream) (now : Int) (keyword limitStr : String)
    (out : List ResponseItem)
    (hok : (handlePRTimesPosts up now keyword limitStr).1 = Except.ok out)
    (i : Nat) (h : i + 1 < out.length) :
    (out.get ⟨i + 1, h⟩).likeCount ≤ (out.get ⟨i, Nat.lt_of_succ_lt h⟩).likeCount := by
  have hs := handle_ok_sorted up now keyword limitStr out hok
  exact List.pairwise_iff_get.mp hs ⟨i, Nat.lt_of_succ_lt h⟩ ⟨i + 1, h⟩
    (by exact Nat.lt_succ_self i)

/-- The item list of a successful handler response, empty on error. -/
def okItems (e : Except HttpError (List ResponseItem)) : List ResponseItem :=
  match e with
  | Except.ok l => l
  | Except.error _ => []

/-- A one-page upstream with two listings whose like counts differ, so
the sort actually has to reorder. -/
def upTwoItems : Upstream :=
  { fetchPRTimesData := fun slot =>
      if slot = 0 ∨ slot = 1 then
        some { currentPage := 1, lastPage := 1, releaseList := [badURLRelease, sampleRelease] }
      else none
    fetchLikeCount := fun rid => if rid = ("123.456") then some 7 else none }

/-- Witness for C4: the concrete two-item request is sorted descending. -/
theorem C4_sorted_descending_witness :
    ((okItems (handlePRTimesPosts upTwoItems refNow ("キーワード") ("")).1).get
        ⟨1, by decide⟩).likeCount ≤
      ((okItems (handlePRTimesPosts upTwoItems refNow ("キーワード") ("")).1).get
        ⟨0, by decide⟩).likeCount :=
  C4_sorted_descending upTwoItems refNow ("キーワード") ("")
    (okItems (handlePRTimesPosts upTwoItems refNow ("キーワード") ("")).1)
    rfl 0 (by decide)

/-! ### C1: limit truncation -/

/-- Counterexample to C1 as stated: supplying the limit parameter 0 does
not return the full result sequence (here of raw count 2, as the
absent-limit request shows) but is rejected as a validation error. -/
theorem C1_limit_zero_rejected_counterexample :
    (handlePRTimesPosts upTwoItems refNow ("キーワード") ("0")).1 =
      Except.error (HttpError.badRequest
        ("limit query parameter must be a positive integer")) ∧
    (okItems (handlePRTimesPosts upTwoItems refNow ("キーワード") ("")).1).length = 2 := by
  constructor
  · rfl
  · rfl

/-- C1 (amended): with a supplied positive limit L and post-sort raw
count R, the returned sequence has length min(L, R); with the limit
parameter absent the returned length is R; a supplied limit equal to 0
is instead rejected by validation. -/
theorem C1_limit_truncation (up : Upstream) (now : Int) (keyword limitStr : String)
    (fp : PRTimesData) (hkw : keyword ≠ "")
    (hfp : up.fetchPRTimesData 0 = some fp) :
    (∀ L : Int, goAtoi limitStr = some L → 0 < L →
      ∃ out, (handlePRTimesPosts up now keyword limitStr).1 = Except.ok out ∧
        out.length =
          min L.toNat (sortByLikeDesc (rawResults up now keyword fp.lastPage)).length) ∧
    (limitStr = "" →
      ∃ out, (handlePRTimesPosts up now keyword limitStr).1 = Except.ok out ∧
        out.length = (sortByLikeDesc (rawResults up now keyword fp.lastPage)).length) ∧
    (goAtoi limitStr = some 0 →
      (handlePRTimesPosts up now keyword limitStr).1 =
        Except.error (HttpError.badRequest
          ("limit query parameter must be a positive integer"))) := by
  refine ⟨?_, ?_, ?_⟩
  · intro L hL hpos
    have hne : limitStr ≠ "" := by
      intro h
      rw [h] at hL
      simp [goAtoi] at hL
    have hlim : parseLimit limitStr = Except.ok L := by
      unfold parseLimit
      rw [if_neg hne, hL]
      exact if_neg (by omega)
    rw [handle_success up now keyword limitStr L fp hkw hlim hfp]
    refine ⟨_, rfl, ?_⟩
    split
    · rename_i hc
      rw [List.length_take]
    · rename_i hc
      rw [Classical.not_and_iff_or_not_not] at hc
      rcases hc with hc | hc
      · omega
      · push_neg at hc
        omega
  · intro h
    subst h
    have hlim : parseLimit ("") = Except.ok 0 := rfl
    rw [handle_success up now keyword ("") 0 fp hkw hlim hfp]
    refine ⟨_, rfl, ?_⟩
    split
    · rename_i hc
      omega
    · rfl
  · intro hL
    have hne : limitStr ≠ "" := by
      intro h
      rw [h] at hL
      simp [goAtoi] at hL
    simp [handlePRTimesPosts, parseLimit, hkw, hne, hL]

/-- Witness for C1: limit 1 against raw count 2 returns one item, and
the absent limit returns both. -/
theorem C1_limit_truncation_witness :
    (∃ out, (handlePRTimesPosts upTwoItems refNow ("キーワード") ("1")).1 = Except.ok out ∧
      out.length =
        min (Int.toNat 1)
          (sortByLikeDesc (rawResults upTwoItems refNow ("キーワード") 1)).length) ∧
    (∃ out, (handlePRTimesPosts upTwoItems refNow ("キーワード") ("")).1 = Except.ok out ∧
      out.length =
        (sortByLikeDesc (rawResults upTwoItems refNow ("キーワード") 1)).length) :=
  ⟨(C1_limit_truncation upTwoItems refNow ("キーワード") ("1") _ (by decide) rfl).1
      1 (by decide) (by decide),
   (C1_limit_truncation upTwoItems refNow ("キーワード") ("") _ (by decide) rfl).2.1 rfl⟩

/-! ### C6: every listing of a successful page yields exactly one item -/

/-- C6: a successfully fetched page contributes exactly one ResponseItem
per RawListing (none are dropped on like-count failure), a failed page
fetch contributes zero items, and the request still succeeds with the
final count equal to the sum of the per-page contributions. -/
theorem C6_one_item_per_listing (up : Upstream) (now : Int) (keyword : String)
    (fp : PRTimesData) (hkw : keyword ≠ "") (hfp : up.fetchPRTimesData 0 = some fp) :
    (∀ page d, up.fetchPRTimesData page = some d →
      (processPage up now keyword page).1.length = d.releaseList.length) ∧
    (∀ page, up.fetchPRTimesData page = none → (processPage up now keyword page).1 = []) ∧
    (∃ out, (handlePRTimesPosts up now keyword ("")).1 = Except.ok out ∧
      out.length =
        ((pageList fp.lastPage).map
          (fun p => (processPage up now keyword p).1.length)).sum) := by
  refine ⟨?_, ?_, ?_⟩
  · intro page d h
    simp [processPage, h]
  · intro page h
    simp [processPage, h]
  · rw [handle_success up now keyword ("") 0 fp hkw rfl hfp]
    refine ⟨_, rfl, ?_⟩
    rw [if_neg (by simp)]
    have hperm := List.perm_insertionSort likeDescOrder (rawResults up now keyword fp.lastPage)
    rw [sortByLikeDesc, hperm.length_eq, rawResults, List.length_flatten]
    simp only [List.map_map]
    rfl

/-- A two-page upstream whose page-2 fan-out fetch fails: page 1 yields
two listings, page 2 contributes nothing. -/
def upTwoPages : Upstream :=
  { fetchPRTimesData := fun slot =>
      if slot = 0 then
        some { currentPage := 1, lastPage := 2, releaseList := [sampleRelease] }
      else if slot = 1 then
        some { currentPage := 1, lastPage := 2, releaseList := [sampleRelease, badURLRelease] }
      else none
    fetchLikeCount := fun rid => if rid = ("123.456") then some 7 else none }

/-- Witness for C6: with the failing second page the request still
succeeds and returns exactly the two page-1 items. -/
theorem C6_one_item_per_listing_witness :
    ∃ out, (handlePRTimesPosts upTwoPages refNow ("キーワード") ("")).1 = Except.ok out ∧
      out.length =
        ((pageList (2 : Int)).map
          (fun p => (processPage upTwoPages refNow ("キーワード") p).1.length)).sum :=
  (C6_one_item_per_listing upTwoPages refNow ("キーワード") _ (by decide) rfl).2.2

/-! ### C2: the empty-identifier policy at the call site -/

/-- A one-page upstream whose single listing has a non-matching release
URL, and whose like-count endpoint always fails. -/
def upEmptyId : Upstream :=
  { fetchPRTimesData := fun slot =>
      if slot = 0 ∨ slot = 1 then
        some { currentPage := 1, lastPage := 1, releaseList := [badURLRelease] }
      else none
    fetchLikeCount := fun _ => none }

/-- Counterexample to C2 as stated: for a listing whose identifier
extraction fails (empty identifier), the handler does issue a like-count
request, with the empty identifier; the item is still included with
popularity 0. -/
theorem C2_empty_id_no_call_counterexample :
    extractReleaseID badURLRelease.releaseURL = "" ∧
    List.count (UpstreamRequest.likeCount (""))
      (handlePRTimesPosts upEmptyId refNow ("キーワード") ("")).2 = 1 ∧
    (okItems (handlePRTimesPosts upEmptyId refNow ("キーワード") ("")).1).map
      ResponseItem.likeCount = [0] := by
  refine ⟨by decide, by decide, by decide⟩

/-- C2 (amended): for a listing with an empty extracted identifier the
per-item step still invokes the like-count fetcher, passing the empty
identifier; the item's popularity is 0 exactly when that call fails, and
is the fetched value when it (unexpectedly) succeeds. -/
theorem C2_empty_identifier_policy (up : Upstream) (now : Int) (r : RawRelease)
    (hid : extractReleaseID r.releaseURL = "") :
    (processRelease up now r).2 = [UpstreamRequest.likeCount ("")] ∧
    (up.fetchLikeCount ("") = none → (processRelease up now r).1.likeCount = 0) ∧
    (∀ v, up.fetchLikeCount ("") = some v → (processRelease up now r).1.likeCount = v) := by
  refine ⟨?_, ?_, ?_⟩
  · simp [processRelease, hid]
  · intro h
    simp [processRelease, hid, h]
  · intro v h
    simp [processRelease, hid, h]

/-- Witness for C2 (amended) at the concrete non-matching listing. -/
theorem C2_empty_identifier_policy_witness :
    (processRelease upDead refNow badURLRelease).2 = [UpstreamRequest.likeCount ("")] ∧
    (upDead.fetchLikeCount ("") = none →
      (processRelease upDead refNow badURLRelease).1.likeCount = 0) ∧
    (∀ v, upDead.fetchLikeCount ("") = some v →
      (processRelease upDead refNow badURLRelease).1.likeCount = v) :=
  C2_empty_identifier_policy upDead refNow badURLRelease (by decide)

/-! ### C9: page 1 is fetched twice and the discovery listings discarded -/

/-- Flattening singleton blocks is a plain map. -/
theorem flatten_map_singleton {α β : Type} (g : α → β) (l : List α) :
    (l.map (fun x => [g x])).flatten = l.map g := by
  induction l with
  | nil => rfl
  | cons a t ih => simp [ih]

/-- The requests of one fan-out task: its own page search followed by
one like-count request per listing. -/
theorem processPage_trace (up : Upstream) (now : Int) (keyword : String) (page : Int)
    (d : PRTimesData) (h : up.fetchPRTimesData page = some d) :
    (processPage up now keyword page).2 =
      UpstreamRequest.search keyword page ::
        d.releaseList.map (fun r => UpstreamRequest.likeCount (extractReleaseID r.releaseURL)) := by
  simp [processPage, h, List.map_map]
  have hfun : (Prod.snd ∘ processRelease up now) =
      (fun r : RawRelease => [UpstreamRequest.likeCount (extractReleaseID r.releaseURL)]) := by
    funext r
    simp [processRelease]
  rw [hfun, flatten_map_singleton]

/-- The like-count request of one fan-out task never equals a page
search, so the per-task count of the page-1 search request is one for
the page-1 task and zero for every other page. -/
theorem processPage_count_search_one (up : Upstream) (now : Int) (keyword : String)
    (page : Int) :
    List.count (UpstreamRequest.search keyword 1) (processPage up now keyword page).2 =
      if page = 1 then 1 else 0 := by
  cases hf : up.fetchPRTimesData page with
  | none =>
    simp only [processPage, hf]
    by_cases hp : page = 1
    · subst hp
      simp
    · simp [List.count_cons, UpstreamRequest.search.injEq, hp]
  | some d =>
    rw [processPage_trace up now keyword page d hf, List.count_cons]
    have hz : List.count (UpstreamRequest.search keyword 1)
        (d.releaseList.map
          (fun r => UpstreamRequest.likeCount (extractReleaseID r.releaseURL))) = 0 := by
      rw [List.count_eq_zero]
      intro hmem
      obtain ⟨r, _, heq⟩ := List.mem_map.mp hmem
      exact absurd heq (by simp)
    rw [hz]
    by_cases hp : page = 1
    · subst hp
      simp
    · simp [UpstreamRequest.search.injEq, hp]

/-- Summing the page-1 indicator over the fan-out pages gives one
exactly when the loop runs at least once. -/
theorem pageList_indicator_sum (n : Int) :
    ((pageList n).map (fun p => if p = (1 : Int) then (1 : Nat) else 0)).sum =
      if 1 ≤ n then 1 else 0 := by
  have hsum : ∀ m : Nat,
      ((List.range m).map
        (fun i : Nat => if ((i : Int) + 1) = (1 : Int) then (1 : Nat) else 0)).sum =
        if 1 ≤ m then 1 else 0 := by
    intro m
    induction m with
    | zero => rfl
    | succ k ih =>
      rw [List.range_succ, List.map_append, List.sum_append, ih]
      by_cases hk : k = 0
      · subst hk
        simp
      · have h1 : 1 ≤ k := Nat.one_le_iff_ne_zero.mpr hk
        have h2 : ¬ ((k : Int) + 1 = 1) := by omega
        simp [h1, h2, hk]
  have hcast : (if 1 ≤ n.toNat then (1 : Nat) else 0) = if 1 ≤ n then 1 else 0 := by
    by_cases hn : 1 ≤ n
    · simp [hn, Int.toNat_of_nonneg (by omega : (0 : Int) ≤ n) ▸ (by omega : 1 ≤ n.toNat)]
      omega
    · have : n.toNat = 0 := by omega
      simp [hn, this]
  rw [pageList, List.map_map, ← hcast, ← hsum n.toNat]
  rfl

/-- C9: in a successful request whose discovery response reports at
least one page, the page-1 listing endpoint is hit exactly twice — once
by the discovery call and once by the fan-out task for page 1 — and the
listings of the discovery response are discarded: the response depends
on the discovery call only through its last-page count, every item being
built from the fan-out fetches. -/
theorem C9_page1_double_fetch (up : Upstream) (now : Int) (keyword : String)
    (fp : PRTimesData) (hkw : keyword ≠ "") (hfp : up.fetchPRTimesData 0 = some fp)
    (hlp : 1 ≤ fp.lastPage) :
    (List.count (UpstreamRequest.search keyword 1)
      (handlePRTimesPosts up now keyword ("")).2 = 2) ∧
    (∀ (up' : Upstream) (fp' : PRTimesData),
      (∀ k, k ≠ 0 → up'.fetchPRTimesData k = up.fetchPRTimesData k) →
      up'.fetchLikeCount = up.fetchLikeCount →
      up'.fetchPRTimesData 0 = some fp' → fp'.lastPage = fp.lastPage →
      (handlePRTimesPosts up' now keyword ("")).1 =
        (handlePRTimesPosts up now keyword ("")).1) := by
  constructor
  · rw [handle_success up now keyword ("") 0 fp hkw rfl hfp]
    dsimp only
    rw [fanOutTrace, List.count_cons, List.count_flatten, List.map_map, List.map_map]
    have hmap : ((pageList fp.lastPage).map
        ((List.count (UpstreamRequest.search keyword 1) ∘ Prod.snd) ∘
          processPage up now keyword)) =
        (pageList fp.lastPage).map (fun p => if p = (1 : Int) then (1 : Nat) else 0) := by
      apply List.map_congr_left
      intro p _
      exact processPage_count_search_one up now keyword p
    rw [hmap, pageList_indicator_sum]
    simp [hlp]
  · intro up' fp' hk hlike hfp' hlp'
    rw [handle_success up' now keyword ("") 0 fp' hkw rfl hfp',
      handle_success up now keyword ("") 0 fp hkw rfl hfp]
    dsimp only
    have hpp : ∀ p : Int, p ≠ 0 →
        processPage up' now keyword p = processPage up now keyword p := by
      intro p hp
      have hfeq := hk p hp
      have hpr : processRelease up' now = processRelease up now := by
        funext r
        simp [processRelease, hlike]
      simp [processPage, hfeq, hpr]
    have hraw : rawResults up' now keyword fp'.lastPage =
        rawResults up now keyword fp.lastPage := by
      rw [hlp', rawResults, rawResults]
      congr 1
      congr 1
      apply List.map_congr_left
      intro p hp
      apply hpp
      have hp2 : ∃ a : Nat, ((a : Int) < fp.lastPage) ∧ ((a : Int) + 1 = p) := by
        simpa [pageList] using hp
      obtain ⟨i, _, rfl⟩ := hp2
      omega
    rw [hraw]

/-- The upstream of the C9 witness with a different (empty) discovery
release list but the same last-page count. -/
def c9AltUp : Upstream :=
  { fetchPRTimesData := fun slot =>
      if slot = 0 then some { currentPage := 1, lastPage := 1, releaseList := [] }
      else upTwoItems.fetchPRTimesData slot
    fetchLikeCount := upTwoItems.fetchLikeCount }

/-- Witness for C9: the concrete request hits page 1 twice, and changing
the discovery listings does not change the response. -/
theorem C9_page1_double_fetch_witness :
    List.count (UpstreamRequest.search ("キーワード") 1)
      (handlePRTimesPosts upTwoItems refNow ("キーワード") ("")).2 = 2 ∧
    (handlePRTimesPosts c9AltUp refNow ("キーワード") ("")).1 =
      (handlePRTimesPosts upTwoItems refNow ("キーワード") ("")).1 :=
  ⟨(C9_page1_double_fetch upTwoItems refNow ("キーワード") _ (by decide) rfl (by decide)).1,
   (C9_page1_double_fetch upTwoItems refNow ("キーワード") _ (by decide) rfl (by decide)).2
     c9AltUp _ (fun k hk => by simp [c9AltUp, hk]) rfl rfl rfl⟩

/-! ### C3: shape lemmas for the rendered digits -/

/-- The rendered digit character is an ASCII digit. -/
theorem digitChar_isDigit (n : Nat) : (digitChar n).isDigit = true := by
  have h : n % 10 < 10 := Nat.mod_lt _ (by omega)
  unfold digitChar
  generalize hk : n % 10 = k at h ⊢
  interval_cases k <;> decide

/-- Every rendered digit list consists of ASCII digits. -/
theorem natDigitsAux_all (f n : Nat) : (natDigitsAux f n).all Char.isDigit = true := by
  induction f generalizing n with
  | zero => rfl
  | succ f ih =>
    rw [natDigitsAux]
    split
    · simp [digitChar_isDigit]
    · simp [ih, digitChar_isDigit]

/-- A number below 10^k renders to at most k digits. -/
theorem natDigitsAux_length_le : ∀ (k f n : Nat), 1 ≤ k → n < 10 ^ k →
    (natDigitsAux f n).length ≤ k := by
  intro k
  induction k with
  | zero => omega
  | succ k ih =>
    intro f n _ hn
    cases f with
    | zero => simp [natDigitsAux]
    | succ f =>
      rw [natDigitsAux]
      split
      · simp
      · rename_i hge
        rw [List.length_append]
        have hk1 : 1 ≤ k := by
          by_contra hk0
          have hkz : k = 0 := by omega
          subst hkz
          simp at hn
          omega
        have hdiv : n / 10 < 10 ^ k := by
          rw [pow_succ] at hn
          omega
        have := ih f (n / 10) hk1 hdiv
        simp
        omega

/-- A nonnegative value below 10^w is rendered by appendInt as exactly w
ASCII digit characters. -/
theorem goAppendInt_shape (x : Int) (w : Nat) (hx : 0 ≤ x) (hw : 1 ≤ w)
    (hb : x.natAbs < 10 ^ w) :
    (goAppendInt x w).data.length = w ∧ (goAppendInt x w).data.all Char.isDigit = true := by
  have hlen : (natDigits x.natAbs).length ≤ w := natDigitsAux_length_le w _ _ hw hb
  have hdata : (goAppendInt x w).data =
      List.replicate (w - (natDigits x.natAbs).length) '0' ++ natDigits x.natAbs := by
    simp only [goAppendInt]
    rw [if_neg (by omega)]
  rw [hdata]
  constructor
  · rw [List.length_append, List.length_replicate]
    omega
  · rw [List.all_append]
    have h0 : (List.replicate (w - (natDigits x.natAbs).length) '0').all Char.isDigit = true := by
      rw [List.all_eq_true]
      intro c hc
      rw [List.eq_of_mem_replicate hc]
      decide
    rw [h0, natDigits] at *
    rw [natDigitsAux_all]
    rfl

/-- A list of length two is a literal pair. -/
theorem exists_list_two {α : Type} (l : List α) (h : l.length = 2) :
    ∃ a b, l = [a, b] := by
  cases l with
  | nil => simp at h
  | cons a t =>
    cases t with
    | nil => simp at h
    | cons b t2 =>
      cases t2 with
      | nil => exact ⟨a, b, rfl⟩
      | cons c t3 =>
        exfalso
        rw [List.length_cons, List.length_cons, List.length_cons] at h
        omega

/-- A list of length four is a literal quadruple. -/
theorem exists_list_four {α : Type} (l : List α) (h : l.length = 4) :
    ∃ a b c d, l = [a, b, c, d] := by
  cases l with
  | nil => simp at h
  | cons a t =>
    cases t with
    | nil => simp at h
    | cons b t2 =>
      have h2 : t2.length = 2 := by
        rw [List.length_cons, List.length_cons] at h
        omega
      obtain ⟨c, d, rfl⟩ := exists_list_two t2 h2
      exact ⟨a, b, c, d, rfl⟩

/-- Rendering in-range components in the layout 2006年01月02日 15:04
always produces the canonical shape. -/
theorem formatGoDateTime_shape (y mo d h mi : Int)
    (hy0 : 0 ≤ y) (hy : y ≤ 9999) (hm0 : 0 ≤ mo) (hm : mo ≤ 99)
    (hd0 : 0 ≤ d) (hd : d ≤ 99) (hh0 : 0 ≤ h) (hh : h ≤ 99)
    (hmi0 : 0 ≤ mi) (hmi : mi ≤ 99) :
    isCanonicalShape (formatGoDateTime y mo d h mi) = true := by
  obtain ⟨hyl, hya⟩ := goAppendInt_shape y 4 hy0 (by omega) (by omega)
  obtain ⟨hml, hma⟩ := goAppendInt_shape mo 2 hm0 (by omega) (by omega)
  obtain ⟨hdl, hda⟩ := goAppendInt_shape d 2 hd0 (by omega) (by omega)
  obtain ⟨hhl, hha⟩ := goAppendInt_shape h 2 hh0 (by omega) (by omega)
  obtain ⟨hmil, hmia⟩ := goAppendInt_shape mi 2 hmi0 (by omega) (by omega)
  obtain ⟨y1, y2, y3, y4, hy4⟩ := exists_list_four (goAppendInt y 4).data hyl
  obtain ⟨m1, m2, hm2⟩ := exists_list_two (goAppendInt mo 2).data hml
  obtain ⟨d1, d2, hd2⟩ := exists_list_two (goAppendInt d 2).data hdl
  obtain ⟨h1, h2, hh2⟩ := exists_list_two (goAppendInt h 2).data hhl
  obtain ⟨n1, n2, hn2⟩ := exists_list_two (goAppendInt mi 2).data hmil
  have hdata : (formatGoDateTime y mo d h mi).data =
      [y1, y2, y3, y4, '年', m1, m2, '月', d1, d2, '日', ' ', h1, h2, ':', n1, n2] := by
    rw [formatGoDateTime]
    simp only [String.data_append]
    rw [hy4, hm2, hd2, hh2, hn2]
    rfl
  rw [hy4] at hya
  rw [hm2] at hma
  rw [hd2] at hda
  rw [hh2] at hha
  rw [hn2] at hmia
  simp only [List.all_cons, List.all_nil, Bool.and_eq_true] at hya hma hda hha hmia
  rw [isCanonicalShape, hdata]
  simp [hya.1, hya.2.1, hya.2.2.1, hya.2.2.2.1, hma.1, hma.2.1, hda.1, hda.2.1,
    hha.1, hha.2.1, hmia.1, hmia.2.1]

/-- Bounds of the civil date for day counts between the years 1677 and
about 8620: a four-digit year and in-range month and day. -/
theorem civilFromDays_bounds (z : Int) (hlo : -106753 ≤ z) (hhi : z ≤ 2430556) :
    (0 ≤ (civilFromDays z).1 ∧ (civilFromDays z).1 ≤ 9999) ∧
    (1 ≤ (civilFromDays z).2.1 ∧ (civilFromDays z).2.1 ≤ 12) ∧
    (1 ≤ (civilFromDays z).2.2 ∧ (civilFromDays z).2.2 ≤ 31) := by
  have e1 := Int.ediv_add_emod (4 * (z + 719468) + 3) 146097
  have e2 := Int.emod_nonneg (4 * (z + 719468) + 3) (by decide : (146097 : Int) ≠ 0)
  have e3 := Int.emod_lt_of_pos (4 * (z + 719468) + 3) (by decide : (0 : Int) < 146097)
  have f1 := Int.ediv_add_emod ((4 * (z + 719468) + 3) % 146097) 4
  have f2 := Int.emod_nonneg ((4 * (z + 719468) + 3) % 146097) (by decide : (4 : Int) ≠ 0)
  have f3 := Int.emod_lt_of_pos ((4 * (z + 719468) + 3) % 146097)
    (by decide : (0 : Int) < 4)
  have g1 := Int.ediv_add_emod
    (4 * (((4 * (z + 719468) + 3) % 146097) / 4) + 3) 1461
  have g2 := Int.emod_nonneg (4 * (((4 * (z + 719468) + 3) % 146097) / 4) + 3)
    (by decide : (1461 : Int) ≠ 0)
  have g3 := Int.emod_lt_of_pos (4 * (((4 * (z + 719468) + 3) % 146097) / 4) + 3)
    (by decide : (0 : Int) < 1461)
  have j1 := Int.ediv_add_emod
    ((4 * (((4 * (z + 719468) + 3) % 146097) / 4) + 3) % 1461) 4
  have j2 := Int.emod_nonneg
    ((4 * (((4 * (z + 719468) + 3) % 146097) / 4) + 3) % 1461)
    (by decide : (4 : Int) ≠ 0)
  have j3 := Int.emod_lt_of_pos
    ((4 * (((4 * (z + 719468) + 3) % 146097) / 4) + 3) % 1461)
    (by decide : (0 : Int) < 4)
  have m1 := Int.ediv_add_emod
    (5 * (((4 * (((4 * (z + 719468) + 3) % 146097) / 4) + 3) % 1461) / 4) + 461)
    153
  have m2 := Int.emod_nonneg
    (5 * (((4 * (((4 * (z + 719468) + 3) % 146097) / 4) + 3) % 1461) / 4) + 461)
    (by decide : (153 : Int) ≠ 0)
  have m3 := Int.emod_lt_of_pos
    (5 * (((4 * (((4 * (z + 719468) + 3) % 146097) / 4) + 3) % 1461) / 4) + 461)
    (by decide : (0 : Int) < 153)
  have d1 := Int.ediv_add_emod
    ((5 * (((4 * (((4 * (z + 719468) + 3) % 146097) / 4) + 3) % 1461) / 4) +
      461) % 153) 5
  have d2 := Int.emod_nonneg
    ((5 * (((4 * (((4 * (z + 719468) + 3) % 146097) / 4) + 3) % 1461) / 4) +
      461) % 153) (by decide : (5 : Int) ≠ 0)
  have d3 := Int.emod_lt_of_pos
    ((5 * (((4 * (((4 * (z + 719468) + 3) % 146097) / 4) + 3) % 1461) / 4) +
      461) % 153) (by decide : (0 : Int) < 5)
  simp only [civilFromDays]
  omega

/-- Every instant between the int64 duration horizon before the epoch
and the year ~8600 formats to the canonical shape. -/
theorem formatGoTime_shape (e : Int) (hlo : -9223372036854775808 ≤ e)
    (hhi : e ≤ 210000000000000000000) :
    isCanonicalShape (formatGoTime e) = true := by
  rw [formatGoTime]
  have hdays_lo : -106753 ≤ (e / 1000000000) / 86400 := by omega
  have hdays_hi : (e / 1000000000) / 86400 ≤ 2430556 := by omega
  obtain ⟨hy, hmo, hd⟩ := civilFromDays_bounds ((e / 1000000000) / 86400)
    hdays_lo hdays_hi
  have s1 := Int.emod_nonneg (e / 1000000000) (by decide : (86400 : Int) ≠ 0)
  have s2 := Int.emod_lt_of_pos (e / 1000000000) (by decide : (0 : Int) < 86400)
  have s3 := Int.ediv_add_emod ((e / 1000000000) % 86400) 3600
  have s4 := Int.emod_nonneg ((e / 1000000000) % 86400) (by decide : (3600 : Int) ≠ 0)
  have s5 := Int.emod_lt_of_pos ((e / 1000000000) % 86400) (by decide : (0 : Int) < 3600)
  have s6 := Int.ediv_add_emod (((e / 1000000000) % 86400) % 3600) 60
  have s7 := Int.emod_nonneg (((e / 1000000000) % 86400) % 3600)
    (by decide : (60 : Int) ≠ 0)
  have s8 := Int.emod_lt_of_pos (((e / 1000000000) % 86400) % 3600)
    (by decide : (0 : Int) < 60)
  apply formatGoDateTime_shape
  · exact hy.1
  · exact hy.2
  · omega
  · omega
  · omega
  · omega
  · omega
  · omega
  · omega
  · omega

/-- An ASCII digit has code point between 48 and 57. -/
theorem isDigit_toNat (c : Char) (hc : c.isDigit = true) :
    48 ≤ c.toNat ∧ c.toNat ≤ 57 := by
  simp [Char.isDigit] at hc
  obtain ⟨h1, h2⟩ := hc
  exact ⟨h1, h2⟩

/-- The numeric value of an ASCII digit is at most 9. -/
theorem digitVal_le (c : Char) (hc : c.isDigit = true) : digitVal c ≤ 9 := by
  have := isDigit_toNat c hc
  unfold digitVal
  omega

/-- int64 wrap-around lands in the int64 range. -/
theorem int64Wrap_bounds (x : Int) :
    -9223372036854775808 ≤ int64Wrap x ∧ int64Wrap x < 9223372036854775808 := by
  unfold int64Wrap
  have e1 := Int.emod_nonneg (x + 9223372036854775808)
    (by decide : (18446744073709551616 : Int) ≠ 0)
  have e2 := Int.emod_lt_of_pos (x + 9223372036854775808)
    (by decide : (0 : Int) < 18446744073709551616)
  omega

/-- A successful Atoi value fits in int64. -/
theorem goAtoi_bounds (s : String) (n : Int) (h : goAtoi s = some n) :
    -9223372036854775808 ≤ n ∧ n ≤ 9223372036854775807 := by
  unfold goAtoi at h
  dsimp only at h
  split at h
  · exact absurd h (by simp)
  · split at h
    · split at h
      · exact absurd h (by simp)
      · rename_i hrange
        rw [Option.some.inj h] at hrange
        push_neg at hrange
        omega
    · exact absurd h (by simp)

/-- A successful getnum value is at most two digits. -/
theorem getnum_le (cs : List Char) (fixed : Bool) (v : Nat) (rest : List Char)
    (h : getnum cs fixed = some (v, rest)) : v ≤ 99 := by
  have hdv := digitVal_le
  unfold getnum at h
  split at h
  · exact absurd h (by simp)
  · rename_i c1
    split at h
    · rename_i hc
      have := hdv c1 hc.1
      obtain ⟨h1, _⟩ := Prod.mk.injEq .. ▸ Option.some.inj h
      omega
    · exact absurd h (by simp)
  · rename_i c1 c2 rest0
    split at h
    · rename_i hc1
      split at h
      · rename_i hc2
        have h1 := hdv c1 hc1
        have h2 := hdv c2 hc2
        obtain ⟨hv, _⟩ := Prod.mk.injEq .. ▸ Option.some.inj h
        omega
      · split at h
        · exact absurd h (by simp)
        · have h1 := hdv c1 hc1
          obtain ⟨hv, _⟩ := Prod.mk.injEq .. ▸ Option.some.inj h
          omega
    · exact absurd h (by simp)

/-- The components produced by a successful absolute parse are in range:
a four-digit year, a valid month, day, hour and minute. -/
theorem parseGoAbsolute_bounds (s : String) (y mo d h mi : Int)
    (hp : parseGoAbsolute s = some (y, mo, d, h, mi)) :
    (0 ≤ y ∧ y ≤ 9999) ∧ (1 ≤ mo ∧ mo ≤ 12) ∧ (1 ≤ d ∧ d ≤ 31) ∧
    (0 ≤ h ∧ h ≤ 23) ∧ (0 ≤ mi ∧ mi ≤ 59) := by
  have hdv := digitVal_le
  have hdaysIn : ∀ (m yy : Int), goDaysIn m yy ≤ 31 := by
    intro m yy
    unfold goDaysIn
    split
    · split <;> omega
    · split <;> omega
  unfold parseGoAbsolute at hp
  split at hp
  case _ y1 y2 y3 y4 rest0 hsd =>
    split at hp
    case isFalse => simp at hp
    case isTrue hdig =>
      obtain ⟨hd1, hd2, hd3, hd4⟩ := hdig
      have b1 := hdv y1 hd1
      have b2 := hdv y2 hd2
      have b3 := hdv y3 hd3
      have b4 := hdv y4 hd4
      dsimp only at hp
      split at hp
      · rename_i rest1
        cases hg1 : getnum rest1 false with
        | none => rw [hg1] at hp; simp at hp
        | some p1 =>
          obtain ⟨mo1, rest2⟩ := p1
          rw [hg1] at hp
          dsimp only at hp
          have hmo99 := getnum_le rest1 false mo1 rest2 hg1
          split at hp
          · rename_i rest3
            cases hg2 : getnum rest3 false with
            | none => rw [hg2] at hp; simp at hp
            | some p2 =>
              obtain ⟨d1, rest4⟩ := p2
              rw [hg2] at hp
              dsimp only at hp
              split at hp
              · rename_i rest5
                cases hg3 : getnum rest5 false with
                | none => rw [hg3] at hp; simp at hp
                | some p3 =>
                  obtain ⟨h1, rest6⟩ := p3
                  rw [hg3] at hp
                  dsimp only at hp
                  split at hp
                  · rename_i rest7
                    cases hg4 : getnum rest7 true with
                    | none => rw [hg4] at hp; simp at hp
                    | some p4 =>
                      obtain ⟨mi1, rest8⟩ := p4
                      rw [hg4] at hp
                      dsimp only at hp
                      split at hp
                      · split at hp
                        case isFalse => simp at hp
                        case isTrue hcond =>
                          obtain ⟨c1, c2, c3, c4, c5, c6⟩ := hcond
                          obtain ⟨hy, hmo, hd, hh, hmi⟩ :
                              ((((digitVal y1 * 10 + digitVal y2) * 10 + digitVal y3) * 10 +
                                digitVal y4 : Nat) : Int) = y ∧ (mo1 : Int) = mo ∧
                                (d1 : Int) = d ∧ (h1 : Int) = h ∧ (mi1 : Int) = mi := by
                            have hinj := Option.some.inj hp
                            refine ⟨congrArg Prod.fst hinj, ?_, ?_, ?_, ?_⟩
                            · exact congrArg (Prod.fst ∘ Prod.snd) hinj
                            · exact congrArg (Prod.fst ∘ Prod.snd ∘ Prod.snd) hinj
                            · exact congrArg
                                (Prod.fst ∘ Prod.snd ∘ Prod.snd ∘ Prod.snd) hinj
                            · exact congrArg
                                (Prod.snd ∘ Prod.snd ∘ Prod.snd ∘ Prod.snd) hinj
                          have hdy := hdaysIn (mo1 : Int)
                            ((((digitVal y1 * 10 + digitVal y2) * 10 + digitVal y3) * 10 +
                              digitVal y4 : Nat) : Int)
                          refine ⟨⟨?_, ?_⟩, ⟨?_, ?_⟩, ⟨?_, ?_⟩, ⟨?_, ?_⟩, ⟨?_, ?_⟩⟩ <;>
                            omega
                      all_goals simp at hp
                  all_goals simp at hp
              all_goals simp at hp
          all_goals simp at hp
      all_goals simp at hp
  case _ => simp at hp

/-- Branch equation: a relative-hours match with a parseable number wins. -/
theorem parseReleaseDate_hours (now : Int) (s : String) (ds : List Char) (n : Int)
    (h1 : findNumBefore hoursMarker s.data = some ds)
    (h2 : goAtoi (String.mk ds) = some n) :
    parseReleaseDate now s = formatGoTime (now + int64Wrap (-n * 3600000000000)) := by
  simp only [parseReleaseDate, h1, h2]

/-- Branch equation: with no relative-hours match, a relative-minutes
match with a parseable number wins. -/
theorem parseReleaseDate_minutes (now : Int) (s : String) (ds : List Char) (n : Int)
    (h0 : findNumBefore hoursMarker s.data = none)
    (h1 : findNumBefore minutesMarker s.data = some ds)
    (h2 : goAtoi (String.mk ds) = some n) :
    parseReleaseDate now s = formatGoTime (now + int64Wrap (-n * 60000000000)) := by
  simp only [parseReleaseDate, h0, h1, h2]

/-- Branch equation: with neither relative form matching, a successful
absolute parse is rendered directly. -/
theorem parseReleaseDate_absolute (now : Int) (s : String) (y mo d h mi : Int)
    (h0 : findNumBefore hoursMarker s.data = none)
    (h1 : findNumBefore minutesMarker s.data = none)
    (h2 : parseGoAbsolute s = some (y, mo, d, h, mi)) :
    parseReleaseDate now s = formatGoDateTime y mo d h mi := by
  simp only [parseReleaseDate, h0, h1, h2]

/-- Branch equation: an unrecognized string falls back to the current time. -/
theorem parseReleaseDate_fallback (now : Int) (s : String)
    (h0 : findNumBefore hoursMarker s.data = none)
    (h1 : findNumBefore minutesMarker s.data = none)
    (h2 : parseGoAbsolute s = none) :
    parseReleaseDate now s = formatGoTime now := by
  simp only [parseReleaseDate, h0, h1, h2]

/-- For any reference instant between the epoch and roughly the year
8300, the normalizer maps every input string to the canonical shape. -/
theorem parseReleaseDate_shape (now : Int) (s : String) (h0 : 0 ≤ now)
    (hT : now ≤ 200000000000000000000) :
    isCanonicalShape (parseReleaseDate now s) = true := by
  cases hh : (match findNumBefore hoursMarker s.data with
      | some ds => goAtoi (String.mk ds)
      | none => none) with
  | some n =>
    have hb : -9223372036854775808 ≤ n ∧ n ≤ 9223372036854775807 := by
      split at hh
      · exact goAtoi_bounds _ _ hh
      · exact absurd hh (by simp)
    have heq : parseReleaseDate now s = formatGoTime (now + int64Wrap (-n * 3600000000000)) := by
      simp only [parseReleaseDate, hh]
    rw [heq]
    have hw := int64Wrap_bounds (-n * 3600000000000)
    apply formatGoTime_shape <;> omega
  | none =>
    cases hm : (match findNumBefore minutesMarker s.data with
        | some ds => goAtoi (String.mk ds)
        | none => none) with
    | some n =>
      have hb : -9223372036854775808 ≤ n ∧ n ≤ 9223372036854775807 := by
        split at hm
        · exact goAtoi_bounds _ _ hm
        · exact absurd hm (by simp)
      have heq : parseReleaseDate now s =
          formatGoTime (now + int64Wrap (-n * 60000000000)) := by
        simp only [parseReleaseDate, hh, hm]
      rw [heq]
      have hw := int64Wrap_bounds (-n * 60000000000)
      apply formatGoTime_shape <;> omega
    | none =>
      cases habs : parseGoAbsolute s with
      | some q =>
        obtain ⟨y, mo, d, h, mi⟩ := q
        have heq : parseReleaseDate now s = formatGoDateTime y mo d h mi := by
          simp only [parseReleaseDate, hh, hm, habs]
        rw [heq]
        obtain ⟨hy, hmo, hd2, hh2, hmi⟩ := parseGoAbsolute_bounds s y mo d h mi habs
        apply formatGoDateTime_shape <;> omega
      | none =>
        have heq : parseReleaseDate now s = formatGoTime now := by
          simp only [parseReleaseDate, hh, hm, habs]
        rw [heq]
        apply formatGoTime_shape <;> omega

/-- C3: at any reference instant T between the epoch and roughly the
year 8300, the Date Normalizer returns a string of the canonical
zero-padded shape YYYY年MM月DD日 HH:MM for every input, classifies
inputs in strict priority order (relative hours, then relative minutes,
then the absolute layout, then the current-time fallback), and in
particular maps 3時間前 to T minus three hours, 45分前 to T minus
45 minutes, 2024年12月3日 09時00分 to 2024年12月03日 09:00, and any
unrecognized string to the formatted current time. -/
theorem C3_date_normalizer (T : Int) (h0 : 0 ≤ T)
    (hT : T ≤ 200000000000000000000) :
    (∀ s : String, isCanonicalShape (parseReleaseDate T s) = true) ∧
    (∀ (s : String) (ds : List Char) (n : Int),
      findNumBefore hoursMarker s.data = some ds →
      goAtoi (String.mk ds) = some n →
      parseReleaseDate T s = formatGoTime (T + int64Wrap (-n * 3600000000000))) ∧
    (∀ (s : String) (ds : List Char) (n : Int),
      findNumBefore hoursMarker s.data = none →
      findNumBefore minutesMarker s.data = some ds →
      goAtoi (String.mk ds) = some n →
      parseReleaseDate T s = formatGoTime (T + int64Wrap (-n * 60000000000))) ∧
    (∀ (s : String) (y mo d h mi : Int),
      findNumBefore hoursMarker s.data = none →
      findNumBefore minutesMarker s.data = none →
      parseGoAbsolute s = some (y, mo, d, h, mi) →
      parseReleaseDate T s = formatGoDateTime y mo d h mi) ∧
    (∀ s : String,
      findNumBefore hoursMarker s.data = none →
      findNumBefore minutesMarker s.data = none →
      parseGoAbsolute s = none →
      parseReleaseDate T s = formatGoTime T) ∧
    parseReleaseDate T ("3時間前") = formatGoTime (T - 3 * 3600000000000) ∧
    parseReleaseDate T ("45分前") = formatGoTime (T - 45 * 60000000000) ∧
    parseReleaseDate T ("2024年12月3日 09時00分") = ("2024年12月03日 09:00") ∧
    parseReleaseDate T ("unknown") = formatGoTime T := by
  refine ⟨fun s => parseReleaseDate_shape T s h0 hT,
    fun s ds n h1 h2 => parseReleaseDate_hours T s ds n h1 h2,
    fun s ds n h1 h2 h3 => parseReleaseDate_minutes T s ds n h1 h2 h3,
    fun s y mo d h mi h1 h2 h3 => parseReleaseDate_absolute T s y mo d h mi h1 h2 h3,
    fun s h1 h2 h3 => parseReleaseDate_fallback T s h1 h2 h3,
    ?_, ?_, ?_, ?_⟩
  · rw [parseReleaseDate_hours T ("3時間前") ('3' :: []) 3 (by decide) (by decide)]
    have hwr : int64Wrap (-3 * 3600000000000) = -10800000000000 := by decide
    rw [hwr]
    congr 1
  · rw [parseReleaseDate_minutes T ("45分前") ('4' :: '5' :: []) 45
      (by decide) (by decide) (by decide)]
    have hwr : int64Wrap (-45 * 60000000000) = -2700000000000 := by decide
    rw [hwr]
    congr 1
  · rw [parseReleaseDate_absolute T ("2024年12月3日 09時00分") 2024 12 3 9 0
      (by decide) (by decide) (by decide)]
    decide
  · exact parseReleaseDate_fallback T ("unknown") (by decide) (by decide) (by decide)

/-- Witness for C3 at the concrete reference instant. -/
theorem C3_date_normalizer_witness :
    parseReleaseDate refNow ("3時間前") =
      formatGoTime (refNow - 3 * 3600000000000) ∧
    parseReleaseDate refNow ("2024年12月3日 09時00分") = ("2024年12月03日 09:00") ∧
    isCanonicalShape (parseReleaseDate refNow ("unknown")) = true :=
  ⟨(C3_date_normalizer refNow (by decide) (by decide)).2.2.2.2.2.1,
   (C3_date_normalizer refNow (by decide) (by decide)).2.2.2.2.2.2.2.1,
   (C3_date_normalizer refNow (by decide) (by decide)).1 ("unknown")⟩
